import Mathlib

/-!
# clox `common.h`: build-time diagnostic toggles and the byte-table bound

The repository consists of one C header, `src/common.h`.  Everything it does
happens in the C preprocessor: it conditionally defines four diagnostic toggle
macros and the constant `UINT8_COUNT`, and undefines the toggles again when
`NDEBUG` is defined.

The embedding is shallow.  A preprocessor state is the table of object-like
macros (`MacroEnv`); each directive of the header becomes the corresponding
Lean operation on that table (`#ifndef`/`#ifdef` become `if`, `#define` becomes
`MacroEnv.define`, `#undef` becomes `MacroEnv.undefine`), in the order of the
source lines.  The three `#include <...>` lines name system headers that are
not part of the repository; their effect is a parameter (`SysHeaders`).

The value of `UINT8_COUNT` is obtained the way a C translation unit obtains
it: the macro is expanded by rescanning and the resulting constant expression
is evaluated in `int` arithmetic of a given width.
-/

namespace Clox

/-! ## Preprocessing tokens and macro tables -/

/-- Preprocessing tokens of a replacement list.  Only the tokens needed to read
`(UINT8_MAX + 1)` are distinguished; any other token is kept as `other`. -/
inductive Tok where
  | ident (name : String)
  | num (value : Nat)
  | lparen
  | rparen
  | plus
  | other (spelling : String)
  deriving DecidableEq, Repr

/-- The macro table: `none` for a name that is not defined, `some body` for an
object-like macro with replacement list `body` (empty for `#define X`). -/
abbrev MacroEnv := String → Option (List Tok)

/-- The table with no macro defined. -/
def MacroEnv.empty : MacroEnv := fun _ => none

/-- `#define name body`.  The new definition replaces an earlier one (for a
redefinition with a different replacement list GCC and Clang warn and go on
with the new list).  In `common.h` only `UINT8_COUNT` can be redefined: every
other `#define` stands under an `#ifndef` of the same name. -/
def MacroEnv.define (env : MacroEnv) (name : String) (body : List Tok) : MacroEnv :=
  fun m => if m = name then some body else env m

/-- `#undef name`; a no-op when `name` is not defined. -/
def MacroEnv.undefine (env : MacroEnv) (name : String) : MacroEnv :=
  fun m => if m = name then none else env m

/-- The test made by `#ifdef name` (and negated by `#ifndef name`). -/
def MacroEnv.defined (env : MacroEnv) (name : String) : Bool :=
  (env name).isSome

/-- Effect of `#include <header>` for a system header on the macro table. -/
abbrev SysHeaders := String → MacroEnv → MacroEnv

/-! ## The header -/

/-- Replacement list of `#define UINT8_COUNT (UINT8_MAX + 1)` (line 24). -/
def UINT8_COUNT : List Tok :=
  [Tok.lparen, Tok.ident "UINT8_MAX", Tok.plus, Tok.num 1, Tok.rparen]

/-- The four diagnostic toggle macros of `common.h`. -/
def toggles : List String :=
  ["DEBUG_PRINT_CODE", "DEBUG_STRESS_GC", "DEBUG_LOG_GC", "DEBUG_TRACE_EXECUTION"]

/-- Lines 1 to 26 of `common.h`: the section inside the include guard. -/
def guardedSection (sys : SysHeaders) (env : MacroEnv) : MacroEnv :=
  if ¬ env.defined "clox_common_h" then                       -- #ifndef clox_common_h
    let env := env.define "clox_common_h" []                   -- #define clox_common_h
    let env := sys "stdbool.h" env                             -- #include <stdbool.h>
    let env := sys "stddef.h" env                              -- #include <stddef.h>
    let env := sys "stdint.h" env                              -- #include <stdint.h>
    let env := if ¬ env.defined "DEBUG_PRINT_CODE" then        -- #ifndef DEBUG_PRINT_CODE
        env.define "DEBUG_PRINT_CODE" []                       -- #define DEBUG_PRINT_CODE
      else env                                                 -- #endif
    let env := if ¬ env.defined "DEBUG_STRESS_GC" then         -- #ifndef DEBUG_STRESS_GC
        env.define "DEBUG_STRESS_GC" []                        -- #define DEBUG_STRESS_GC
      else env                                                 -- #endif
    let env := if ¬ env.defined "DEBUG_LOG_GC" then            -- #ifndef DEBUG_LOG_GC
        env.define "DEBUG_LOG_GC" []                           -- #define DEBUG_LOG_GC
      else env                                                 -- #endif
    let env := if ¬ env.defined "DEBUG_TRACE_EXECUTION" then   -- #ifndef DEBUG_TRACE_EXECUTION
        env.define "DEBUG_TRACE_EXECUTION" []                  -- #define DEBUG_TRACE_EXECUTION
      else env                                                 -- #endif
    env.define "UINT8_COUNT" UINT8_COUNT                       -- #define UINT8_COUNT (UINT8_MAX + 1)
  else env                                                     -- #endif

/-- Lines 28 to 34 of `common.h`: the block after the include guard. -/
def ndebugBlock (env : MacroEnv) : MacroEnv :=
  if env.defined "NDEBUG" then                                 -- #ifdef NDEBUG
    let env := env.undefine "DEBUG_PRINT_CODE"                    -- #undef DEBUG_PRINT_CODE
    let env := env.undefine "DEBUG_STRESS_GC"                     -- #undef DEBUG_STRESS_GC
    let env := env.undefine "DEBUG_TRACE_EXECUTION"               -- #undef DEBUG_TRACE_EXECUTION
    env.undefine "DEBUG_LOG_GC"                                   -- #undef DEBUG_LOG_GC
  else env                                                     -- #endif

/-- Processing `#include "common.h"` in macro table `env`. -/
def common_h (sys : SysHeaders) (env : MacroEnv) : MacroEnv :=
  ndebugBlock (guardedSection sys env)

/-- The group `#ifndef n` / `#define n` / `#endif`, as one operation. -/
def ensureDefined (env : MacroEnv) (n : String) : MacroEnv :=
  if ¬ env.defined n then env.define n [] else env

/-- The macro table at line 7 of a first inclusion, after the three includes. -/
def afterIncludes (sys : SysHeaders) (env : MacroEnv) : MacroEnv :=
  sys "stdint.h" (sys "stddef.h" (sys "stdbool.h" (env.define "clox_common_h" [])))

/-- The toggles that `#ifdef` finds defined in `env`, in the order of `toggles`. -/
def definedToggles (env : MacroEnv) : List String :=
  toggles.filter (fun t => env.defined t)

/-! ## Reading a macro as an integer constant expression -/

/-- Macro expansion by rescanning: an identifier that names a macro is replaced
by its replacement list and scanning resumes at the start of the replacement.
Every scanned token costs one unit of fuel; `none` when the fuel runs out, as
it does for a macro that names itself. -/
def expandTokens (env : MacroEnv) : Nat → List Tok → Option (List Tok)
  | 0, _ => none
  | _ + 1, [] => some []
  | fuel + 1, Tok.ident name :: rest =>
    match env name with
    | some body => expandTokens env fuel (body ++ rest)
    | none => (expandTokens env fuel rest).map (fun out => Tok.ident name :: out)
  | fuel + 1, tok :: rest => (expandTokens env fuel rest).map (fun out => tok :: out)

/-- Whether `v` is representable in a signed `int` of `intBits` bits. -/
def intFits (intBits : Nat) (v : Int) : Bool :=
  decide (-(2 : Int) ^ (intBits - 1) ≤ v) && decide (v < (2 : Int) ^ (intBits - 1))

/-- Addition of two `int` values; `none` on signed overflow. -/
def intAdd (intBits : Nat) (a b : Int) : Option Int :=
  if intFits intBits (a + b) then some (a + b) else none

/-- Evaluator for expressions built from decimal constants of type `int`,
parentheses and left-associative `+`.  With `acc = none` an operand is expected;
with `acc = some a` the value so far is `a` and either `+ operand` or the end
of the expression follows.  Returns the value and the unread tokens. -/
def evalExpr (intBits : Nat) : Nat → Option Int → List Tok → Option (Int × List Tok)
  | 0, _, _ => none
  | fuel + 1, none, Tok.num n :: rest =>
    if intFits intBits n then evalExpr intBits fuel (some n) rest else none
  | fuel + 1, none, Tok.lparen :: rest =>
    match evalExpr intBits fuel none rest with
    | some (v, Tok.rparen :: rest') => evalExpr intBits fuel (some v) rest'
    | _ => none
  | _ + 1, none, _ => none
  | fuel + 1, some a, Tok.plus :: Tok.num n :: rest =>
    if intFits intBits n then
      match intAdd intBits a n with
      | some s => evalExpr intBits fuel (some s) rest
      | none => none
    else none
  | fuel + 1, some a, Tok.plus :: Tok.lparen :: rest =>
    match evalExpr intBits fuel none rest with
    | some (v, Tok.rparen :: rest') =>
      match intAdd intBits a v with
      | some s => evalExpr intBits fuel (some s) rest'
      | none => none
    | _ => none
  | _ + 1, some a, rest => some (a, rest)

/-- Value of the expression `name` in a translation unit whose macro table is
`env`, with `int` of `intBits` bits: expand, then evaluate the whole result. -/
def macroValue (intBits fuel : Nat) (env : MacroEnv) (name : String) : Option Int :=
  match expandTokens env fuel [Tok.ident name] with
  | some toks =>
    match evalExpr intBits fuel none toks with
    | some (v, []) => some v
    | _ => none
  | none => none

/-- Modelled from the spec: the byte-indexed tables sized by the constant live
in other modules; a table is a list and a read at an index is bounds-checked,
with `none` as the out-of-bounds branch. -/
def tableGet {α : Type} (table : List α) (i : Nat) : Option α :=
  if h : i < table.length then some (table.get ⟨i, h⟩) else none

/-! ## Assumptions on the system headers and sample inputs -/

/-- The system headers leave the include guard, `NDEBUG` and the four toggles
as they found them (these names are not reserved for the implementation). -/
def SysHeaders.Frame (sys : SysHeaders) : Prop :=
  ∀ (header : String) (env : MacroEnv) (name : String),
    name ∈ "clox_common_h" :: "NDEBUG" :: toggles → sys header env name = env name

/-- The header `<stdint.h>` defines `UINT8_MAX` as the constant 255, bare or
parenthesised. -/
def SysHeaders.Uint8Max (sys : SysHeaders) : Prop :=
  ∀ env : MacroEnv,
    sys "stdint.h" env "UINT8_MAX" = some [Tok.num 255] ∨
    sys "stdint.h" env "UINT8_MAX" = some [Tok.lparen, Tok.num 255, Tok.rparen]

/-- A small model of the system headers: `<stdint.h>` defines `UINT8_MAX`. -/
def stdHeaders : SysHeaders :=
  fun header env =>
    if header = "stdint.h" then env.define "UINT8_MAX" [Tok.lparen, Tok.num 255, Tok.rparen]
    else env

/-- Command line `-DNDEBUG`. -/
def releaseEnv : MacroEnv := MacroEnv.empty.define "NDEBUG" []

/-- Command line `-DDEBUG_TRACE_EXECUTION=0`. -/
def traceZeroEnv : MacroEnv := MacroEnv.empty.define "DEBUG_TRACE_EXECUTION" [Tok.num 0]

/-! ## Basic facts about the two sections of the header -/

theorem define_same (env : MacroEnv) (n : String) (b : List Tok) :
    env.define n b n = some b := by
  simp [MacroEnv.define]

theorem define_other (env : MacroEnv) (n m : String) (b : List Tok) (h : m ≠ n) :
    env.define n b m = env m := by
  simp [MacroEnv.define, h]

theorem undefine_same (env : MacroEnv) (n : String) : env.undefine n n = none := by
  simp [MacroEnv.undefine]

theorem undefine_other (env : MacroEnv) (n m : String) (h : m ≠ n) :
    env.undefine n m = env m := by
  simp [MacroEnv.undefine, h]

theorem defined_iff (env : MacroEnv) (n : String) :
    env.defined n = true ↔ env n ≠ none := by
  cases h : env n <;> simp [MacroEnv.defined, h]

theorem not_defined_iff (env : MacroEnv) (n : String) :
    env.defined n = false ↔ env n = none := by
  cases h : env n <;> simp [MacroEnv.defined, h]

/-- A macro table seen through the three system includes of the header. -/
theorem frame_three (sys : SysHeaders) (hf : sys.Frame) (env : MacroEnv) (n : String)
    (hn : n ∈ "clox_common_h" :: "NDEBUG" :: toggles) :
    sys "stdint.h" (sys "stddef.h" (sys "stdbool.h" env)) n = env n := by
  rw [hf _ _ n hn, hf _ _ n hn, hf _ _ n hn]

/-- With the guard already defined the guarded section is skipped. -/
theorem guardedSection_skip (sys : SysHeaders) (env : MacroEnv)
    (hg : env "clox_common_h" ≠ none) : guardedSection sys env = env := by
  have : env.defined "clox_common_h" = true := (defined_iff _ _).2 hg
  simp [guardedSection, this]

/-- The block after the guard does nothing when `NDEBUG` is not defined. -/
theorem ndebugBlock_dev (env : MacroEnv) (hn : env "NDEBUG" = none) :
    ndebugBlock env = env := by
  have : env.defined "NDEBUG" = false := (not_defined_iff _ _).2 hn
  simp [ndebugBlock, this]

/-- The block after the guard undefines every toggle when `NDEBUG` is defined. -/
theorem ndebugBlock_release_toggle (env : MacroEnv) (hn : env "NDEBUG" ≠ none)
    (t : String) (ht : t ∈ toggles) : ndebugBlock env t = none := by
  have : env.defined "NDEBUG" = true := (defined_iff _ _).2 hn
  simp only [toggles, List.mem_cons, List.mem_singleton, List.not_mem_nil, or_false] at ht
  rcases ht with rfl | rfl | rfl | rfl <;>
    simp [ndebugBlock, this, MacroEnv.undefine]

/-- The block after the guard changes no macro other than the toggles. -/
theorem ndebugBlock_other (env : MacroEnv) (n : String) (hn : n ∉ toggles) :
    ndebugBlock env n = env n := by
  simp only [toggles, List.mem_cons, List.mem_singleton, List.not_mem_nil, or_false,
    not_or] at hn
  obtain ⟨h1, h2, h3, h4⟩ := hn
  unfold ndebugBlock
  split
  · simp [MacroEnv.undefine, h1, h2, h3, h4]
  · rfl

theorem ensureDefined_same (env : MacroEnv) (n : String) :
    ensureDefined env n n = some ((env n).getD []) := by
  cases h : env n <;> simp [ensureDefined, MacroEnv.defined, MacroEnv.define, h]

theorem ensureDefined_other (env : MacroEnv) (n m : String) (h : m ≠ n) :
    ensureDefined env n m = env m := by
  unfold ensureDefined
  split
  · exact define_other _ _ _ _ h
  · rfl

/-- The guarded section of a first inclusion, written with `ensureDefined`. -/
theorem guardedSection_first (sys : SysHeaders) (env : MacroEnv)
    (hg : env "clox_common_h" = none) :
    guardedSection sys env =
      (ensureDefined (ensureDefined (ensureDefined (ensureDefined (afterIncludes sys env)
        "DEBUG_PRINT_CODE") "DEBUG_STRESS_GC") "DEBUG_LOG_GC") "DEBUG_TRACE_EXECUTION").define
        "UINT8_COUNT" UINT8_COUNT := by
  have hgd : env.defined "clox_common_h" = false := (not_defined_iff _ _).2 hg
  unfold guardedSection
  rw [if_pos (by simp [hgd])]
  rfl

theorem afterIncludes_frame (sys : SysHeaders) (hf : sys.Frame) (env : MacroEnv) (n : String)
    (hn : n ∈ "clox_common_h" :: "NDEBUG" :: toggles) :
    afterIncludes sys env n = (env.define "clox_common_h" []) n :=
  frame_three sys hf _ n hn

/-- On a first inclusion the guarded section gives every toggle a definition:
the one it already had, or else the empty one. -/
theorem guardedSection_first_toggle (sys : SysHeaders) (hf : sys.Frame) (env : MacroEnv)
    (hg : env "clox_common_h" = none) (t : String) (ht : t ∈ toggles) :
    guardedSection sys env t = some ((env t).getD []) := by
  rw [guardedSection_first sys env hg]
  have hmem : t ∈ "clox_common_h" :: "NDEBUG" :: toggles := by simp [ht]
  have hbase : afterIncludes sys env t = env t := by
    rw [afterIncludes_frame sys hf env t hmem]
    apply define_other
    intro h
    subst h
    simp [toggles] at ht
  simp only [toggles, List.mem_cons, List.mem_singleton, List.not_mem_nil, or_false] at ht
  rcases ht with rfl | rfl | rfl | rfl
  · rw [define_other _ _ _ _ (by decide), ensureDefined_other _ _ _ (by decide),
      ensureDefined_other _ _ _ (by decide), ensureDefined_other _ _ _ (by decide),
      ensureDefined_same, hbase]
  · rw [define_other _ _ _ _ (by decide), ensureDefined_other _ _ _ (by decide),
      ensureDefined_other _ _ _ (by decide), ensureDefined_same,
      ensureDefined_other _ _ _ (by decide), hbase]
  · rw [define_other _ _ _ _ (by decide), ensureDefined_other _ _ _ (by decide),
      ensureDefined_same, ensureDefined_other _ _ _ (by decide),
      ensureDefined_other _ _ _ (by decide), hbase]
  · rw [define_other _ _ _ _ (by decide), ensureDefined_same,
      ensureDefined_other _ _ _ (by decide), ensureDefined_other _ _ _ (by decide),
      ensureDefined_other _ _ _ (by decide), hbase]

/-- On a first inclusion the guarded section changes no macro other than the
guard, the toggles, `UINT8_COUNT` and what the system headers change. -/
theorem guardedSection_first_other (sys : SysHeaders) (env : MacroEnv)
    (hg : env "clox_common_h" = none) (n : String) (hn : n ∉ toggles)
    (hc : n ≠ "UINT8_COUNT") :
    guardedSection sys env n = afterIncludes sys env n := by
  simp only [toggles, List.mem_cons, List.mem_singleton, List.not_mem_nil, or_false,
    not_or] at hn
  obtain ⟨h1, h2, h3, h4⟩ := hn
  rw [guardedSection_first sys env hg, define_other _ _ _ _ hc,
    ensureDefined_other _ _ _ h4, ensureDefined_other _ _ _ h3,
    ensureDefined_other _ _ _ h2, ensureDefined_other _ _ _ h1]

theorem guardedSection_first_count (sys : SysHeaders) (env : MacroEnv)
    (hg : env "clox_common_h" = none) :
    guardedSection sys env "UINT8_COUNT" = some UINT8_COUNT := by
  rw [guardedSection_first sys env hg, define_same]

/-- The guarded section never changes whether `NDEBUG` is defined. -/
theorem guardedSection_ndebug (sys : SysHeaders) (hf : sys.Frame) (env : MacroEnv) :
    guardedSection sys env "NDEBUG" = env "NDEBUG" := by
  cases hg : env "clox_common_h" with
  | none =>
    rw [guardedSection_first_other sys env hg _ (by decide) (by decide),
      afterIncludes_frame sys hf env _ (by simp), define_other _ _ _ _ (by decide)]
  | some b => rw [guardedSection_skip sys env (by simp [hg])]

/-- After the guarded section the include guard is defined. -/
theorem guardedSection_guard (sys : SysHeaders) (hf : sys.Frame) (env : MacroEnv) :
    guardedSection sys env "clox_common_h" ≠ none := by
  cases hg : env "clox_common_h" with
  | none =>
    rw [guardedSection_first_other sys env hg _ (by decide) (by decide),
      afterIncludes_frame sys hf env _ (by simp), define_same]
    simp
  | some b => rw [guardedSection_skip sys env (by simp [hg])]; simp [hg]

/-! ## The value of `UINT8_COUNT` -/

/-- Values of 16-bit magnitude fit every `int` of at least 16 bits. -/
theorem intFits_of_small (w : Nat) (hw : 16 ≤ w) (v : Int) (h1 : -32768 ≤ v)
    (h2 : v < 32768) : intFits w v = true := by
  have hp : (2 : Int) ^ 15 ≤ (2 : Int) ^ (w - 1) :=
    pow_le_pow_right₀ (by norm_num) (by omega)
  have h15 : (2 : Int) ^ 15 = 32768 := by norm_num
  simp only [intFits, Bool.and_eq_true, decide_eq_true_eq]
  constructor <;> omega

/-- In a table where `UINT8_COUNT` has the header's definition and `UINT8_MAX`
is 255, `UINT8_COUNT` evaluates to 256. -/
theorem macroValue_count (w fuel : Nat) (hw : 16 ≤ w) (hfuel : 10 ≤ fuel) (env : MacroEnv)
    (hc : env "UINT8_COUNT" = some UINT8_COUNT)
    (hm : env "UINT8_MAX" = some [Tok.num 255] ∨
      env "UINT8_MAX" = some [Tok.lparen, Tok.num 255, Tok.rparen]) :
    macroValue w fuel env "UINT8_COUNT" = some 256 := by
  obtain ⟨k, rfl⟩ : ∃ k, fuel = k + 10 := ⟨fuel - 10, by omega⟩
  have f255 : intFits w 255 = true := intFits_of_small w hw _ (by norm_num) (by norm_num)
  have f1 : intFits w 1 = true := intFits_of_small w hw _ (by norm_num) (by norm_num)
  have f256 : intFits w 256 = true := intFits_of_small w hw _ (by norm_num) (by norm_num)
  rcases hm with hm | hm
  · simp [macroValue, expandTokens, evalExpr, intAdd, hc, hm, UINT8_COUNT, f255, f1, f256]
  · simp [macroValue, expandTokens, evalExpr, intAdd, hc, hm, UINT8_COUNT, f255, f1, f256]

theorem macroValue_max (w fuel : Nat) (hw : 16 ≤ w) (hfuel : 10 ≤ fuel) (env : MacroEnv)
    (hm : env "UINT8_MAX" = some [Tok.num 255] ∨
      env "UINT8_MAX" = some [Tok.lparen, Tok.num 255, Tok.rparen]) :
    macroValue w fuel env "UINT8_MAX" = some 255 := by
  obtain ⟨k, rfl⟩ : ∃ k, fuel = k + 10 := ⟨fuel - 10, by omega⟩
  have f255 : intFits w 255 = true := intFits_of_small w hw _ (by norm_num) (by norm_num)
  rcases hm with hm | hm
  · simp [macroValue, expandTokens, evalExpr, hm, f255]
  · simp [macroValue, expandTokens, evalExpr, hm, f255]

/-! ## Facts about the whole header -/

theorem definedToggles_eq_nil (env : MacroEnv) (h : ∀ t ∈ toggles, env t = none) :
    definedToggles env = [] := by
  unfold definedToggles
  rw [List.filter_eq_nil_iff]
  intro t ht
  simp [MacroEnv.defined, h t ht]

theorem definedToggles_eq_all (env : MacroEnv) (h : ∀ t ∈ toggles, env t ≠ none) :
    definedToggles env = toggles := by
  unfold definedToggles
  rw [List.filter_eq_self]
  intro t ht
  exact (defined_iff env t).2 (h t ht)

theorem mem_definedToggles (env : MacroEnv) (t : String) :
    t ∈ definedToggles env ↔ t ∈ toggles ∧ env t ≠ none := by
  unfold definedToggles
  rw [List.mem_filter, defined_iff]

/-- Under `NDEBUG` no toggle survives the header. -/
theorem common_h_release_toggle (sys : SysHeaders) (hf : sys.Frame) (env : MacroEnv)
    (hn : env "NDEBUG" ≠ none) (t : String) (ht : t ∈ toggles) :
    common_h sys env t = none := by
  unfold common_h
  apply ndebugBlock_release_toggle _ _ t ht
  rw [guardedSection_ndebug sys hf env]
  exact hn

/-- Without `NDEBUG` the header is its guarded section. -/
theorem common_h_dev (sys : SysHeaders) (hf : sys.Frame) (env : MacroEnv)
    (hn : env "NDEBUG" = none) : common_h sys env = guardedSection sys env := by
  unfold common_h
  apply ndebugBlock_dev
  rw [guardedSection_ndebug sys hf env]
  exact hn

/-- The header never changes a macro that is neither a toggle nor one the
guarded section changes. -/
theorem common_h_other (sys : SysHeaders) (env : MacroEnv) (n : String) (hn : n ∉ toggles) :
    common_h sys env n = guardedSection sys env n :=
  ndebugBlock_other _ n hn

theorem common_h_ndebug (sys : SysHeaders) (hf : sys.Frame) (env : MacroEnv) :
    common_h sys env "NDEBUG" = env "NDEBUG" := by
  rw [common_h_other sys env _ (by decide), guardedSection_ndebug sys hf env]

theorem common_h_guard (sys : SysHeaders) (hf : sys.Frame) (env : MacroEnv) :
    common_h sys env "clox_common_h" ≠ none := by
  rw [common_h_other sys env _ (by decide)]
  exact guardedSection_guard sys hf env

/-- After a first inclusion `UINT8_COUNT` has the header's replacement list. -/
theorem common_h_first_count (sys : SysHeaders) (env : MacroEnv)
    (hg : env "clox_common_h" = none) :
    common_h sys env "UINT8_COUNT" = some UINT8_COUNT := by
  rw [common_h_other sys env _ (by decide), guardedSection_first_count sys env hg]

/-- After a first inclusion `UINT8_MAX` is what `<stdint.h>` made it. -/
theorem common_h_first_max (sys : SysHeaders) (hm : sys.Uint8Max) (env : MacroEnv)
    (hg : env "clox_common_h" = none) :
    common_h sys env "UINT8_MAX" = some [Tok.num 255] ∨
      common_h sys env "UINT8_MAX" = some [Tok.lparen, Tok.num 255, Tok.rparen] := by
  rw [common_h_other sys env _ (by decide),
    guardedSection_first_other sys env hg _ (by decide) (by decide)]
  exact hm _

/-- The block after the guard is idempotent. -/
theorem ndebugBlock_idem (env : MacroEnv) : ndebugBlock (ndebugBlock env) = ndebugBlock env := by
  have hnd : ndebugBlock env "NDEBUG" = env "NDEBUG" := ndebugBlock_other env _ (by decide)
  cases h : env "NDEBUG" with
  | none => rw [ndebugBlock_dev env h]; exact ndebugBlock_dev env h
  | some b =>
    have hne : env "NDEBUG" ≠ none := by simp [h]
    funext n
    by_cases hn : n ∈ toggles
    · rw [ndebugBlock_release_toggle _ (by rw [hnd]; exact hne) n hn,
        ndebugBlock_release_toggle _ hne n hn]
    · rw [ndebugBlock_other _ n hn]

/-- Processing the header a second time changes nothing. -/
theorem common_h_idem (sys : SysHeaders) (hf : sys.Frame) (env : MacroEnv) :
    common_h sys (common_h sys env) = common_h sys env := by
  have hskip : guardedSection sys (common_h sys env) = common_h sys env :=
    guardedSection_skip sys _ (common_h_guard sys hf env)
  show ndebugBlock (guardedSection sys (common_h sys env)) = common_h sys env
  rw [hskip]
  exact ndebugBlock_idem _

theorem stdHeaders_frame : stdHeaders.Frame := by
  intro header env name hmem
  have hne : name ≠ "UINT8_MAX" := by
    intro h
    subst h
    simp [toggles] at hmem
  unfold stdHeaders
  split
  · exact define_other _ _ _ _ hne
  · rfl

theorem stdHeaders_uint8Max : stdHeaders.Uint8Max := by
  intro env
  right
  simp [stdHeaders, MacroEnv.define]

/-! ## The claims -/

/-- C1 (release build): in every macro table in which `NDEBUG` is defined,
whichever toggles were pre-defined and whether or not the include guard is
already defined, none of the four toggles is defined after `common.h` has been
processed. -/
theorem release_build_undefines_all_toggles (sys : SysHeaders) (hf : sys.Frame)
    (env : MacroEnv) (hn : env "NDEBUG" ≠ none) :
    definedToggles (common_h sys env) = [] ∧
      (common_h sys env).defined "DEBUG_PRINT_CODE" = false ∧
      (common_h sys env).defined "DEBUG_STRESS_GC" = false ∧
      (common_h sys env).defined "DEBUG_LOG_GC" = false ∧
      (common_h sys env).defined "DEBUG_TRACE_EXECUTION" = false := by
  have h := common_h_release_toggle sys hf env hn
  refine ⟨definedToggles_eq_nil _ h, ?_, ?_, ?_, ?_⟩ <;>
    exact (not_defined_iff _ _).2 (h _ (by simp [toggles]))

/-- Witness for C1: `-DNDEBUG -DDEBUG_LOG_GC` on a first inclusion. -/
theorem release_build_undefines_all_toggles_witness :
    (releaseEnv.define "DEBUG_LOG_GC" []) "NDEBUG" ≠ none ∧
      (definedToggles (common_h stdHeaders (releaseEnv.define "DEBUG_LOG_GC" [])) = [] ∧
      (common_h stdHeaders (releaseEnv.define "DEBUG_LOG_GC" [])).defined "DEBUG_PRINT_CODE"
        = false ∧
      (common_h stdHeaders (releaseEnv.define "DEBUG_LOG_GC" [])).defined "DEBUG_STRESS_GC"
        = false ∧
      (common_h stdHeaders (releaseEnv.define "DEBUG_LOG_GC" [])).defined "DEBUG_LOG_GC"
        = false ∧
      (common_h stdHeaders (releaseEnv.define "DEBUG_LOG_GC" [])).defined "DEBUG_TRACE_EXECUTION"
        = false) :=
  ⟨by decide,
    release_build_undefines_all_toggles stdHeaders stdHeaders_frame
      (releaseEnv.define "DEBUG_LOG_GC" []) (by decide)⟩

/-- C2 (development build): on a first inclusion (include guard not defined)
with `NDEBUG` not defined, whichever toggles were pre-defined, all four toggles
are defined after `common.h` has been processed. -/
theorem development_build_defines_all_toggles (sys : SysHeaders) (hf : sys.Frame)
    (env : MacroEnv) (hg : env "clox_common_h" = none) (hn : env "NDEBUG" = none) :
    definedToggles (common_h sys env) = toggles ∧
      (common_h sys env).defined "DEBUG_PRINT_CODE" = true ∧
      (common_h sys env).defined "DEBUG_STRESS_GC" = true ∧
      (common_h sys env).defined "DEBUG_LOG_GC" = true ∧
      (common_h sys env).defined "DEBUG_TRACE_EXECUTION" = true := by
  have h : ∀ t ∈ toggles, common_h sys env t ≠ none := by
    intro t ht
    rw [common_h_dev sys hf env hn, guardedSection_first_toggle sys hf env hg t ht]
    simp
  refine ⟨definedToggles_eq_all _ h, ?_, ?_, ?_, ?_⟩ <;>
    exact (defined_iff _ _).2 (h _ (by simp [toggles]))

/-- Witness for C2: `-DDEBUG_TRACE_EXECUTION=0` on a first inclusion. -/
theorem development_build_defines_all_toggles_witness :
    traceZeroEnv "clox_common_h" = none ∧ traceZeroEnv "NDEBUG" = none ∧
      (definedToggles (common_h stdHeaders traceZeroEnv) = toggles ∧
      (common_h stdHeaders traceZeroEnv).defined "DEBUG_PRINT_CODE" = true ∧
      (common_h stdHeaders traceZeroEnv).defined "DEBUG_STRESS_GC" = true ∧
      (common_h stdHeaders traceZeroEnv).defined "DEBUG_LOG_GC" = true ∧
      (common_h stdHeaders traceZeroEnv).defined "DEBUG_TRACE_EXECUTION" = true) :=
  ⟨by decide, by decide,
    development_build_defines_all_toggles stdHeaders stdHeaders_frame traceZeroEnv
      (by decide) (by decide)⟩

/-- C3: `UINT8_COUNT`, defined as `(UINT8_MAX + 1)`, evaluates to exactly 256
when `UINT8_MAX` is 255 and `int` has at least 16 bits; the sum is not the
value 0 that addition modulo 2^8 would give. -/
theorem uint8_count_is_256 (intBits fuel : Nat) (hw : 16 ≤ intBits) (hfuel : 10 ≤ fuel)
    (env : MacroEnv) (hc : env "UINT8_COUNT" = some UINT8_COUNT)
    (hm : env "UINT8_MAX" = some [Tok.num 255] ∨
      env "UINT8_MAX" = some [Tok.lparen, Tok.num 255, Tok.rparen]) :
    macroValue intBits fuel env "UINT8_COUNT" = some 256 ∧
      macroValue intBits fuel env "UINT8_COUNT" ≠ some ((255 + 1) % 2 ^ 8) ∧
      ((255 + 1) % 2 ^ 8 : Int) = 0 := by
  have h := macroValue_count intBits fuel hw hfuel env hc hm
  refine ⟨h, ?_, by norm_num⟩
  rw [h]
  norm_num

/-- Witness for C3: 16-bit `int`, the macro table left by a development build. -/
theorem uint8_count_is_256_witness :
    common_h stdHeaders MacroEnv.empty "UINT8_COUNT" = some UINT8_COUNT ∧
      (macroValue 16 10 (common_h stdHeaders MacroEnv.empty) "UINT8_COUNT" = some 256 ∧
      macroValue 16 10 (common_h stdHeaders MacroEnv.empty) "UINT8_COUNT"
        ≠ some ((255 + 1) % 2 ^ 8) ∧
      ((255 + 1) % 2 ^ 8 : Int) = 0) :=
  ⟨by decide,
    uint8_count_is_256 16 10 (by decide) (by decide) (common_h stdHeaders MacroEnv.empty)
      (by decide) (Or.inr (by decide))⟩

/-- C4 (independence of the constant from the build mode): for every macro
table of a first inclusion, processing `common.h` with `NDEBUG` defined and
with `NDEBUG` not defined leaves `UINT8_COUNT` defined with the same
replacement list and the same value, 256; the `NDEBUG` block changes no macro
other than the four toggles, so it never touches `UINT8_COUNT`. -/
theorem uint8_count_independent_of_build_mode (sys : SysHeaders) (hm : sys.Uint8Max)
    (intBits fuel : Nat) (hw : 16 ≤ intBits) (hfuel : 10 ≤ fuel)
    (env : MacroEnv) (hg : env "clox_common_h" = none) :
    common_h sys (env.define "NDEBUG" []) "UINT8_COUNT" = some UINT8_COUNT ∧
      common_h sys (env.undefine "NDEBUG") "UINT8_COUNT" = some UINT8_COUNT ∧
      macroValue intBits fuel (common_h sys (env.define "NDEBUG" [])) "UINT8_COUNT"
        = some 256 ∧
      macroValue intBits fuel (common_h sys (env.undefine "NDEBUG")) "UINT8_COUNT"
        = some 256 ∧
      (∀ (e : MacroEnv) (n : String), n ∉ toggles → ndebugBlock e n = e n) ∧
      (∀ e : MacroEnv, ndebugBlock e "UINT8_COUNT" = e "UINT8_COUNT") := by
  have hgR : (env.define "NDEBUG" []) "clox_common_h" = none := by
    rw [define_other _ _ _ _ (by decide)]; exact hg
  have hgD : (env.undefine "NDEBUG") "clox_common_h" = none := by
    rw [undefine_other _ _ _ (by decide)]; exact hg
  have cR := common_h_first_count sys _ hgR
  have cD := common_h_first_count sys _ hgD
  exact ⟨cR, cD,
    macroValue_count intBits fuel hw hfuel _ cR (common_h_first_max sys hm _ hgR),
    macroValue_count intBits fuel hw hfuel _ cD (common_h_first_max sys hm _ hgD),
    fun e n hn => ndebugBlock_other e n hn,
    fun e => ndebugBlock_other e _ (by decide)⟩

/-- Witness for C4: `-DDEBUG_STRESS_GC`, 32-bit `int`. -/
theorem uint8_count_independent_of_build_mode_witness :
    (MacroEnv.empty.define "DEBUG_STRESS_GC" []) "clox_common_h" = none ∧
      macroValue 32 10
        (common_h stdHeaders ((MacroEnv.empty.define "DEBUG_STRESS_GC" []).define "NDEBUG" []))
        "UINT8_COUNT" = some 256 ∧
      macroValue 32 10
        (common_h stdHeaders ((MacroEnv.empty.define "DEBUG_STRESS_GC" []).undefine "NDEBUG"))
        "UINT8_COUNT" = some 256 :=
  have h := uint8_count_independent_of_build_mode stdHeaders stdHeaders_uint8Max 32 10
    (by decide) (by decide) (MacroEnv.empty.define "DEBUG_STRESS_GC" []) (by decide)
  ⟨by decide, h.2.2.1, h.2.2.2.1⟩

/-- C5 (idempotence): for every macro table, processing `common.h` twice in a
row yields the same defined/undefined status of the four toggles and the same
`UINT8_COUNT` (replacement list and value) as processing it once; the `NDEBUG`
signal seen by the second pass is the one seen by the first. -/
theorem common_h_twice_same_as_once (sys : SysHeaders) (hf : sys.Frame) (env : MacroEnv) :
    common_h sys env "NDEBUG" = env "NDEBUG" ∧
      definedToggles (common_h sys (common_h sys env)) = definedToggles (common_h sys env) ∧
      (∀ t ∈ toggles,
        (common_h sys (common_h sys env)).defined t = (common_h sys env).defined t) ∧
      common_h sys (common_h sys env) "UINT8_COUNT" = common_h sys env "UINT8_COUNT" ∧
      (∀ intBits fuel : Nat,
        macroValue intBits fuel (common_h sys (common_h sys env)) "UINT8_COUNT"
          = macroValue intBits fuel (common_h sys env) "UINT8_COUNT") := by
  have h := common_h_idem sys hf env
  refine ⟨common_h_ndebug sys hf env, ?_, ?_, ?_, ?_⟩
  · rw [h]
  · intro t _; rw [h]
  · rw [h]
  · intro w f; rw [h]

/-- Witness for C5: a release build that pre-defines one toggle. -/
theorem common_h_twice_same_as_once_witness :
    definedToggles (common_h stdHeaders (common_h stdHeaders
        (releaseEnv.define "DEBUG_PRINT_CODE" [Tok.num 1])))
      = definedToggles (common_h stdHeaders (releaseEnv.define "DEBUG_PRINT_CODE" [Tok.num 1])) ∧
    common_h stdHeaders (common_h stdHeaders
        (releaseEnv.define "DEBUG_PRINT_CODE" [Tok.num 1])) "UINT8_COUNT"
      = common_h stdHeaders (releaseEnv.define "DEBUG_PRINT_CODE" [Tok.num 1]) "UINT8_COUNT" :=
  have h := common_h_twice_same_as_once stdHeaders stdHeaders_frame
    (releaseEnv.define "DEBUG_PRINT_CODE" [Tok.num 1])
  ⟨h.2.1, h.2.2.2.1⟩

/-- C6 (all-or-nothing): after a first inclusion of `common.h`, for every
combination of the `NDEBUG` signal and of pre-defined toggles, the set of
defined toggles is all four or none of them. -/
theorem toggles_all_or_none (sys : SysHeaders) (hf : sys.Frame) (env : MacroEnv)
    (hg : env "clox_common_h" = none) :
    definedToggles (common_h sys env) = toggles ∨ definedToggles (common_h sys env) = [] := by
  cases hn : env "NDEBUG" with
  | none =>
    left
    apply definedToggles_eq_all
    intro t ht
    rw [common_h_dev sys hf env hn, guardedSection_first_toggle sys hf env hg t ht]
    simp
  | some b =>
    right
    exact definedToggles_eq_nil _ (common_h_release_toggle sys hf env (by simp [hn]))

/-- Witness for C6: only `DEBUG_LOG_GC` pre-defined, no `NDEBUG`. -/
theorem toggles_all_or_none_witness :
    (MacroEnv.empty.define "DEBUG_LOG_GC" [Tok.num 1]) "clox_common_h" = none ∧
      (definedToggles (common_h stdHeaders (MacroEnv.empty.define "DEBUG_LOG_GC" [Tok.num 1]))
          = toggles ∨
        definedToggles (common_h stdHeaders (MacroEnv.empty.define "DEBUG_LOG_GC" [Tok.num 1]))
          = []) :=
  ⟨by decide,
    toggles_all_or_none stdHeaders stdHeaders_frame
      (MacroEnv.empty.define "DEBUG_LOG_GC" [Tok.num 1]) (by decide)⟩

/-- C7 (safe byte indexing): every unsigned 8-bit value `i` satisfies
`0 ≤ i < UINT8_COUNT`, so a read at index `i` of a table of length
`UINT8_COUNT` never takes the out-of-bounds branch; the bound is tight, since
`UINT8_COUNT - 1` equals `UINT8_MAX`, itself an 8-bit index, at which every
shorter table is read out of bounds. -/
theorem byte_index_within_uint8_count {α : Type} (intBits fuel : Nat) (hw : 16 ≤ intBits)
    (hfuel : 10 ≤ fuel) (env : MacroEnv) (hc : env "UINT8_COUNT" = some UINT8_COUNT)
    (hm : env "UINT8_MAX" = some [Tok.num 255] ∨
      env "UINT8_MAX" = some [Tok.lparen, Tok.num 255, Tok.rparen]) :
    ∃ count : Nat, macroValue intBits fuel env "UINT8_COUNT" = some (count : Int) ∧
      (∀ i : Nat, i < 2 ^ 8 → (0 : Int) ≤ (i : Int) ∧ (i : Int) < (count : Int)) ∧
      (∀ (table : List α) (i : Nat), table.length = count → i < 2 ^ 8 →
        tableGet table i ≠ none) ∧
      macroValue intBits fuel env "UINT8_MAX" = some ((count : Int) - 1) ∧
      count - 1 < 2 ^ 8 ∧
      (∀ table : List α, table.length < count → tableGet table (count - 1) = none) := by
  refine ⟨256, ?_, ?_, ?_, ?_, by norm_num, ?_⟩
  · exact macroValue_count intBits fuel hw hfuel env hc hm
  · intro i hi
    have : i < 256 := by simpa using hi
    constructor <;> omega
  · intro table i hlen hi
    have : i < table.length := by rw [hlen]; simpa using hi
    simp [tableGet, this]
  · rw [macroValue_max intBits fuel hw hfuel env hm]
    norm_num
  · intro table hlen
    have : ¬ (256 - 1 < table.length) := by omega
    simp only [tableGet, this, dite_false]

/-- Witness for C7: 64-bit `int`, the macro table left by a release build. -/
theorem byte_index_within_uint8_count_witness :
    common_h stdHeaders releaseEnv "UINT8_COUNT" = some UINT8_COUNT ∧
      ∃ count : Nat,
        macroValue 64 12 (common_h stdHeaders releaseEnv) "UINT8_COUNT" = some (count : Int) ∧
        (∀ i : Nat, i < 2 ^ 8 → (0 : Int) ≤ (i : Int) ∧ (i : Int) < (count : Int)) ∧
        (∀ (table : List Nat) (i : Nat), table.length = count → i < 2 ^ 8 →
          tableGet table i ≠ none) ∧
        macroValue 64 12 (common_h stdHeaders releaseEnv) "UINT8_MAX"
          = some ((count : Int) - 1) ∧
        count - 1 < 2 ^ 8 ∧
        (∀ table : List Nat, table.length < count → tableGet table (count - 1) = none) :=
  ⟨by decide,
    byte_index_within_uint8_count 64 12 (by decide) (by decide)
      (common_h stdHeaders releaseEnv) (by decide) (Or.inr (by decide))⟩

/-- C8 (re-inclusion can only disable toggles): when the include guard is
already defined, processing `common.h` leaves the set of defined toggles a
subset of what it was: unchanged when `NDEBUG` is not defined, empty when it
is.  In particular, including the header with `NDEBUG` defined, undefining
`NDEBUG` and including the header again leaves all four toggles undefined
although `NDEBUG` is no longer defined. -/
theorem reinclusion_only_disables_toggles (sys : SysHeaders) (hf : sys.Frame)
    (env : MacroEnv) (hg : env "clox_common_h" ≠ none) :
    (∀ t : String, t ∈ definedToggles (common_h sys env) → t ∈ definedToggles env) ∧
      (env "NDEBUG" = none →
        definedToggles (common_h sys env) = definedToggles env ∧
        ∀ t ∈ toggles, common_h sys env t = env t) ∧
      (env "NDEBUG" ≠ none → definedToggles (common_h sys env) = []) ∧
      (∀ env0 : MacroEnv, env0 "NDEBUG" ≠ none →
        ((common_h sys env0).undefine "NDEBUG") "NDEBUG" = none ∧
        definedToggles (common_h sys ((common_h sys env0).undefine "NDEBUG")) = []) := by
  have hdev : env "NDEBUG" = none → common_h sys env = env := by
    intro hn
    rw [common_h_dev sys hf env hn, guardedSection_skip sys env hg]
  have hrel : env "NDEBUG" ≠ none → definedToggles (common_h sys env) = [] :=
    fun hn => definedToggles_eq_nil _ (common_h_release_toggle sys hf env hn)
  refine ⟨?_, ?_, hrel, ?_⟩
  · intro t ht
    by_cases hn : env "NDEBUG" = none
    · rw [hdev hn] at ht; exact ht
    · rw [hrel hn] at ht; simp at ht
  · intro hn
    rw [hdev hn]
    exact ⟨rfl, fun _ _ => rfl⟩
  · intro env0 hn0
    refine ⟨undefine_same _ _, ?_⟩
    have hg2 : ((common_h sys env0).undefine "NDEBUG") "clox_common_h" ≠ none := by
      rw [undefine_other _ _ _ (by decide)]
      exact common_h_guard sys hf env0
    have hn2 : ((common_h sys env0).undefine "NDEBUG") "NDEBUG" = none := undefine_same _ _
    rw [common_h_dev sys hf _ hn2, guardedSection_skip sys _ hg2]
    apply definedToggles_eq_nil
    intro t ht
    have hne : t ≠ "NDEBUG" := by
      intro h
      subst h
      simp [toggles] at ht
    rw [undefine_other _ _ _ hne]
    exact common_h_release_toggle sys hf env0 hn0 t ht

/-- Witness for C8: the header is included under `-DNDEBUG`; this table, with
the guard defined, is the input of a second inclusion. -/
theorem reinclusion_only_disables_toggles_witness :
    common_h stdHeaders releaseEnv "clox_common_h" ≠ none ∧
      definedToggles (common_h stdHeaders (common_h stdHeaders releaseEnv)) = [] ∧
      definedToggles
        (common_h stdHeaders ((common_h stdHeaders releaseEnv).undefine "NDEBUG")) = [] :=
  have h := reinclusion_only_disables_toggles stdHeaders stdHeaders_frame
    (common_h stdHeaders releaseEnv) (by decide)
  ⟨by decide, h.2.2.1 (by decide), (h.2.2.2 releaseEnv (by decide)).2⟩

/-- C9 (toggles are presence-based and never redefined): without `NDEBUG`, a
toggle that was pre-defined with some replacement list keeps exactly that list
after `common.h` has been processed and counts as defined under `#ifdef`; on a
first inclusion a toggle that was not pre-defined receives the empty
definition, and only toggles that were not pre-defined receive it. -/
theorem predefined_toggle_keeps_replacement (sys : SysHeaders) (hf : sys.Frame)
    (env : MacroEnv) (hn : env "NDEBUG" = none) :
    (∀ t ∈ toggles, ∀ body : List Tok, env t = some body →
        common_h sys env t = some body ∧ (common_h sys env).defined t = true) ∧
      (env "clox_common_h" = none → ∀ t ∈ toggles, env t = none →
        common_h sys env t = some []) ∧
      (∀ t ∈ toggles, common_h sys env t ≠ env t →
        env t = none ∧ common_h sys env t = some []) := by
  have hval : ∀ t ∈ toggles, common_h sys env t = env t ∨
      (env t = none ∧ common_h sys env t = some []) := by
    intro t ht
    rw [common_h_dev sys hf env hn]
    cases hg : env "clox_common_h" with
    | none =>
      rw [guardedSection_first_toggle sys hf env hg t ht]
      cases hb : env t with
      | none => right; simp
      | some b => left; simp
    | some b =>
      left
      rw [guardedSection_skip sys env (by simp [hg])]
  refine ⟨?_, ?_, ?_⟩
  · intro t ht body hb
    have hkeep : common_h sys env t = some body := by
      rcases hval t ht with h | ⟨h, _⟩
      · rw [h, hb]
      · rw [hb] at h; simp at h
    exact ⟨hkeep, (defined_iff _ _).2 (by simp [hkeep])⟩
  · intro hg t ht hb
    rw [common_h_dev sys hf env hn, guardedSection_first_toggle sys hf env hg t ht, hb]
    rfl
  · intro t ht hne
    rcases hval t ht with h | h
    · exact absurd h hne
    · exact h

/-- Witness for C9: `-DDEBUG_TRACE_EXECUTION=0` keeps the replacement list `0`
and the three other toggles receive the empty definition. -/
theorem predefined_toggle_keeps_replacement_witness :
    traceZeroEnv "NDEBUG" = none ∧
      common_h stdHeaders traceZeroEnv "DEBUG_TRACE_EXECUTION" = some [Tok.num 0] ∧
      (common_h stdHeaders traceZeroEnv).defined "DEBUG_TRACE_EXECUTION" = true ∧
      common_h stdHeaders traceZeroEnv "DEBUG_PRINT_CODE" = some [] :=
  have h := predefined_toggle_keeps_replacement stdHeaders stdHeaders_frame traceZeroEnv
    (by decide)
  ⟨by decide,
    (h.1 "DEBUG_TRACE_EXECUTION" (by decide) [Tok.num 0] (by decide)).1,
    (h.1 "DEBUG_TRACE_EXECUTION" (by decide) [Tok.num 0] (by decide)).2,
    h.2.1 (by decide) "DEBUG_PRINT_CODE" (by decide) (by decide)⟩

end Clox
